import Mathlib

/-!
Verification of the spacified-time-request core (src/src/request.ts): the
timed request transmitter, the scheduling primitive `doOnTargetTime`, and the
response parsing path.  Byte sequences are modelled as `List Nat` (one entry
per octet); strings written to the socket are converted through an explicit
UTF-8 encoder, matching `socket.write(string)` / `Buffer.from(string)`.
-/

namespace SpacifiedTimeRequest

/-- UTF-8 encoding of a single character, one `Nat` per octet
(the encoding performed by `Buffer.from` / `socket.write` on strings). -/
def utf8Char (c : Char) : List Nat :=
  let n := c.toNat
  if n < 0x80 then [n]
  else if n < 0x800 then [0xC0 + n / 64, 0x80 + n % 64]
  else if n < 0x10000 then
    [0xE0 + n / 4096, 0x80 + (n / 64) % 64, 0x80 + n % 64]
  else
    [0xF0 + n / 262144, 0x80 + (n / 4096) % 64, 0x80 + (n / 64) % 64, 0x80 + n % 64]

/-- UTF-8 bytes of a string. -/
def utf8Str (s : String) : List Nat :=
  (s.data.map utf8Char).flatten

/-! ### JavaScript object semantics for `Record<string, string>`

A JS object is an insertion-ordered association list with unique keys.
Property assignment (`obj[k] = v`, and each step of an object-literal spread)
overwrites the value in place when the key is already present (keeping its
position) and appends the pair otherwise.  Key comparison is exact —
case-sensitive — string equality. -/

/-- JS property assignment `m[k] = v`: replace in place or append. -/
def objInsert {κ α : Type} [DecidableEq κ] : List (κ × α) → κ → α → List (κ × α)
  | [], k, v => [(k, v)]
  | p :: rest, k, v =>
    if p.1 = k then (k, v) :: rest else p :: objInsert rest k v

/-- JS property lookup: value of the first (for a well-formed object, only)
entry with exactly the key `k`. -/
def objLookup {κ α : Type} [DecidableEq κ] : List (κ × α) → κ → Option α
  | [], _ => none
  | p :: rest, k => if p.1 = k then some p.2 else objLookup rest k

/-- Object-literal spread `{...m, ...adds}`: assign the entries of `adds`
into `m` in order. -/
def objSpread {κ α : Type} [DecidableEq κ] (m adds : List (κ × α)) : List (κ × α) :=
  adds.foldl (fun acc p => objInsert acc p.1 p.2) m

/-- Value of the last entry of `m` carrying key `k` (the entry that wins when
`m` is spread into an object). -/
def objLookupLast {κ α : Type} [DecidableEq κ] (m : List (κ × α)) (k : κ) : Option α :=
  objLookup m.reverse k

/-- First-of-two option choice: the left value when present, else the right. -/
def orElseO {α : Type} : Option α → Option α → Option α
  | some v, _ => some v
  | none, b => b

/-! ### RequestSpec (the `RequestOptions` interface) -/

/-- The TS `Time = string | number | Date` union.  A `Date` value is kept as
its millisecond timestamp. -/
inductive TimeV : Type
  | str (s : String)
  | num (n : Int)
  | date (millis : Int)
deriving DecidableEq

/-- JavaScript truthiness of a `Time` value: the empty string and the number
zero are falsy, every other string/number and every `Date` object is truthy. -/
def TimeV.truthy : TimeV → Bool
  | .str s => s ≠ ""
  | .num n => n ≠ 0
  | .date _ => true

/-- Truthiness of the possibly-absent `targetTime` field: `undefined` is
falsy, otherwise the value's own truthiness (the guard `if (targetTime)`). -/
def optTruthy : Option TimeV → Bool
  | none => false
  | some t => t.truthy

/-- The `RequestOptions` argument of `request`; `none` models an absent
(`undefined`) field. -/
structure RequestOptions where
  host : String
  port : Nat
  method : Option String := none
  path : Option String := none
  headers : Option (List (String × String)) := none
  body : Option String := none
  targetTime : Option TimeV := none
  https : Option Bool := none

/-- Field `method` after the `{...defaultOptions, ..._options}` merge. -/
def methodOf (o : RequestOptions) : String := o.method.getD "GET"

/-- Field `path` after the defaults merge. -/
def pathOf (o : RequestOptions) : String := o.path.getD "/"

/-- Field `headers` after the defaults merge. -/
def headersOf (o : RequestOptions) : List (String × String) := o.headers.getD []

/-- Field `body` after the defaults merge. -/
def bodyOf (o : RequestOptions) : String := o.body.getD ""

/-- The guard `isHasBodyRequest = !!body && method !== 'GET' && method !== 'HEAD'`. -/
def isHasBodyRequest (o : RequestOptions) : Bool :=
  (bodyOf o != "") && (methodOf o != "GET") && (methodOf o != "HEAD")

/-- The default headers object literal
`{Host: host, Connection: 'keep-alive', accept: 'application/json'}`. -/
def defaultHeaders (o : RequestOptions) : List (String × String) :=
  [("Host", o.host), ("Connection", "keep-alive"), ("accept", "application/json")]

/-- The `requestHeaders` object before the Content-Length injection:
`{Host, Connection, accept, ...headers}`. -/
def mergedHeaders (o : RequestOptions) : List (String × String) :=
  objSpread (defaultHeaders o) (headersOf o)

/-- The final `requestHeaders` object: when `isHasBodyRequest`, the
assignment `requestHeaders['Content-Length'] = Buffer.byteLength(body)`. -/
def requestHeadersOf (o : RequestOptions) : List (String × String) :=
  if isHasBodyRequest o then
    objInsert (mergedHeaders o) "Content-Length" (toString (utf8Str (bodyOf o)).length)
  else
    mergedHeaders o

/-- The serialized header lines, one per entry of `requestHeaders`. -/
def headerLinesOf (o : RequestOptions) : List String :=
  (requestHeadersOf o).map (fun p => p.1 ++ ": " ++ p.2)

/-- The string `requestHead = requestLine + headerLines` (no trailing blank line). -/
def requestHeadOf (o : RequestOptions) : String :=
  methodOf o ++ " " ++ pathOf o ++ " HTTP/1.1\r\n" ++
    String.intercalate "\r\n" (headerLinesOf o)

/-- The `emptyRow` terminator: the blank line written after the header block. -/
def emptyRow : String := "\r\n\r\n"

/-! ### The transmission sequence

`request` writes a sequence of byte chunks to the socket.  Each write is
recorded as a pair of the bytes and a flag saying whether the write was
routed through `doOnTargetTime` (`true` = delayed until the target time,
`false` = written immediately).  The list is in transmission order: a delayed
write is the last write of its phase and is performed after all immediate
writes that precede it in the list. -/

/-- Writes performed by `sendHeader`: the head immediately, then the blank
line, delayed exactly when the `targetTime` argument is truthy. -/
def sendHeaderEvents (requestHead : String) (targetTime : Option TimeV) :
    List (List Nat × Bool) :=
  [(utf8Str requestHead, false), (utf8Str emptyRow, optTruthy targetTime)]

/-- Writes performed by `sendBody`: all bytes but the last immediately
(`buffer.slice(0, length - 1)`), then the last byte
(`buffer.slice(length - 1, length)`), delayed exactly when `targetTime` is
truthy. -/
def sendBodyEvents (body : String) (targetTime : Option TimeV) :
    List (List Nat × Bool) :=
  let buffer := utf8Str body
  [(buffer.dropLast, false),
   (buffer.drop (buffer.length - 1), optTruthy targetTime)]

/-- The complete write sequence of one `request` call:
`sendHeader(socket, ..., isHasBodyRequest ? undefined : targetTime)` followed,
when `isHasBodyRequest`, by `sendBody(socket, body, targetTime)`. -/
def requestEvents (o : RequestOptions) : List (List Nat × Bool) :=
  sendHeaderEvents (requestHeadOf o)
      (if isHasBodyRequest o then none else o.targetTime) ++
    (if isHasBodyRequest o then sendBodyEvents (bodyOf o) o.targetTime else [])

/-- All bytes put on the wire by one `request` call, in transmission order. -/
def streamBytes (o : RequestOptions) : List Nat :=
  ((requestEvents o).map Prod.fst).flatten

/-! ### Response parsing (`parseResponse`)

`parseResponse` feeds the accumulated buffer to an HTTP/1.1 response parser
(the external http-parser-js library) and assembles an `HttpResponse` record.
Modelled from the spec: the parsing algorithm itself is the external
collaborator's, reproduced here from the spec's design-level description in
section 4.3 (status line, header lines terminated by an empty line, then the
body framed by Content-Length, else chunked, else until end of input); the
zero-response fallback when the status line or header block never completes,
and the empty body when the framed body is incomplete (`response.body || ''`),
follow `parseResponse` in src/src/request.ts directly.  Text fields of the
response are kept as byte sequences. -/

/-- The `HttpResponse` record; string fields carried as their bytes, header
names lower-cased on storage. -/
structure HttpResponse where
  statusCode : Nat
  statusText : List Nat
  headers : List (List Nat × List Nat)
  body : List Nat
deriving DecidableEq

/-- The all-zero response the source falls back to when parsing fails:
`{statusCode: 0, statusText: '', headers: {}, body: ''}`. -/
def zeroResponse : HttpResponse := ⟨0, [], [], []⟩

/-- Split a byte sequence at its first CRLF; `none` when no CRLF is present
(the line is still incomplete). -/
def splitAtCRLF : List Nat → Option (List Nat × List Nat)
  | 13 :: 10 :: rest => some ([], rest)
  | b :: rest => (splitAtCRLF rest).map (fun p => (b :: p.1, p.2))
  | [] => none

/-- ASCII decimal digit test on a byte. -/
def isDigitByte (b : Nat) : Bool := 48 ≤ b && b ≤ 57

/-- Lower-case an ASCII byte (the effect of `toLowerCase` on header names). -/
def toLowerByte (b : Nat) : Nat := if 65 ≤ b && b ≤ 90 then b + 32 else b

/-- Space or horizontal tab. -/
def isWSByte (b : Nat) : Bool := b == 32 || b == 9

/-- Strip leading and trailing whitespace from a header value. -/
def trimBytes (bs : List Nat) : List Nat :=
  ((bs.dropWhile isWSByte).reverse.dropWhile isWSByte).reverse

/-- Match a status line `HTTP/<d>.<d> SP <3 digits> [SP <reason>]`, returning
the status code and the reason bytes. -/
def matchStatusLine : List Nat → Option (Nat × List Nat)
  | 72 :: 84 :: 84 :: 80 :: 47 :: v1 :: 46 :: v2 :: 32 :: c1 :: c2 :: c3 :: rest =>
    if isDigitByte v1 && isDigitByte v2 &&
        isDigitByte c1 && isDigitByte c2 && isDigitByte c3 then
      let code := (c1 - 48) * 100 + (c2 - 48) * 10 + (c3 - 48)
      match rest with
      | [] => some (code, [])
      | 32 :: reason => some (code, reason)
      | _ => none
    else none
  | _ => none

/-- Parse the status line off the front of the buffer. -/
def parseStatusLine (bs : List Nat) : Option (Nat × List Nat × List Nat) :=
  match splitAtCRLF bs with
  | none => none
  | some (line, rest) =>
    (matchStatusLine line).map (fun p => (p.1, p.2, rest))

/-- Split a header line at its first colon; `none` when the line has no
colon (a malformed header line). -/
def splitAtColon : List Nat → Option (List Nat × List Nat)
  | 58 :: rest => some ([], rest)
  | b :: rest => (splitAtColon rest).map (fun p => (b :: p.1, p.2))
  | [] => none

/-- Parse one `Name: Value` header line: name lower-cased, value trimmed. -/
def parseHeaderLine (line : List Nat) : Option (List Nat × List Nat) :=
  (splitAtColon line).map (fun p => (p.1.map toLowerByte, trimBytes p.2))

/-- Parse header lines until the empty line that ends the header block,
returning the header pairs and the remaining body bytes.  `none` when the
block is incomplete or a line is malformed.  Each parsed line consumes at
least two bytes, so `bs.length + 1` fuel always suffices. -/
def parseHeadersAux : Nat → List Nat → Option (List (List Nat × List Nat) × List Nat)
  | 0, _ => none
  | fuel + 1, bs =>
    match splitAtCRLF bs with
    | none => none
    | some ([], rest) => some ([], rest)
    | some (line, rest) =>
      match parseHeaderLine line with
      | none => none
      | some kv =>
        match parseHeadersAux fuel rest with
        | none => none
        | some (hs, body) => some (kv :: hs, body)

/-- Parse the header block off the front of the buffer. -/
def parseHeaders (bs : List Nat) : Option (List (List Nat × List Nat) × List Nat) :=
  parseHeadersAux (bs.length + 1) bs

/-- Parse a non-empty all-digit byte sequence as a decimal number. -/
def parseNatBytes (bs : List Nat) : Option Nat :=
  if bs ≠ [] && bs.all isDigitByte then
    some (bs.foldl (fun acc b => acc * 10 + (b - 48)) 0)
  else none

/-- Hexadecimal digit value of a byte, if it is a hex digit. -/
def hexDigitValue (b : Nat) : Option Nat :=
  if 48 ≤ b && b ≤ 57 then some (b - 48)
  else if 97 ≤ b && b ≤ 102 then some (b - 87)
  else if 65 ≤ b && b ≤ 70 then some (b - 55)
  else none

/-- Parse a non-empty hex byte sequence (a chunk-size line). -/
def parseHexBytes (bs : List Nat) : Option Nat :=
  match bs with
  | [] => none
  | _ =>
    bs.foldl
      (fun acc b =>
        match acc, hexDigitValue b with
        | some a, some d => some (a * 16 + d)
        | _, _ => none)
      (some 0)

/-- Decode a chunked body: size line, data, CRLF, repeated, until the
zero-size chunk followed by its trailing CRLF.  An incomplete or malformed
chunk stream yields the empty body (the message never completes, so
`response.body` stays unset and `'' ` is returned).  Each round consumes at
least three bytes, so `bs.length + 1` fuel always suffices. -/
def decodeChunkedAux : Nat → List Nat → List Nat → List Nat
  | 0, _, _ => []
  | fuel + 1, bs, acc =>
    match splitAtCRLF bs with
    | none => []
    | some (sizeLine, rest) =>
      match parseHexBytes sizeLine with
      | none => []
      | some 0 =>
        match rest with
        | 13 :: 10 :: _ => acc
        | _ => []
      | some (n + 1) =>
        let size := n + 1
        if size ≤ rest.length then
          match rest.drop size with
          | 13 :: 10 :: rest2 => decodeChunkedAux fuel rest2 (acc ++ rest.take size)
          | _ => []
        else []

/-- Decode a chunked body from the bytes following the header block. -/
def decodeChunked (bs : List Nat) : List Nat :=
  decodeChunkedAux (bs.length + 1) bs []

/-- Does the stored header object declare `Transfer-Encoding: chunked`? -/
def isChunked (hdrs : List (List Nat × List Nat)) : Bool :=
  match objLookup hdrs (utf8Str "transfer-encoding") with
  | some v => v.map toLowerByte == utf8Str "chunked"
  | none => false

/-- The function `parseResponse(rawResponse)`: parse the accumulated buffer and assemble
the result record.  When the status line or the header block never parses,
the status code is never set and the catch-all fallback returns the zero
response; when the headers parse, the status/header fields are returned even
if the body is incomplete, with `body = ''` unless the framed body completed
(`response.body || ''`). -/
def parseResponse (raw : List Nat) : HttpResponse :=
  match parseStatusLine raw with
  | none => zeroResponse
  | some (code, text, afterStatus) =>
    match parseHeaders afterStatus with
    | none => zeroResponse
    | some (pairs, bodyRest) =>
      let hdrs := pairs.foldl (fun m p => objInsert m p.1 p.2) []
      match objLookup hdrs (utf8Str "content-length") with
      | some v =>
        match parseNatBytes v with
        | none => zeroResponse
        | some n =>
          ⟨code, text, hdrs, if n ≤ bodyRest.length then bodyRest.take n else []⟩
      | none =>
        if isChunked hdrs then ⟨code, text, hdrs, decodeChunked bodyRest⟩
        else ⟨code, text, hdrs, bodyRest⟩

/-! ### The response-side event loop of `request`

Inside `new Promise((resolve, reject) => ...)` the source registers a
`'data'` listener that appends the chunk to `responseData`, calls
`resolve(parseResponse(responseData))` and then `socket.end()`, and an
`'error'` listener bound to `reject`.  A promise settles at most once: the
first `resolve`/`reject` call wins and every later one is a no-op, while
`socket.end()` still runs on every data event. -/

/-- How the promise returned by `request` settled. -/
inductive Settled : Type
  | rejected (e : String)
  | resolvedWith (r : HttpResponse)
deriving DecidableEq

/-- State of one in-flight `request` promise. -/
structure PromiseState where
  buffer : List Nat
  settled : Option Settled
  endCalls : Nat
deriving DecidableEq

/-- The state before any socket event. -/
def initPromiseState : PromiseState := ⟨[], none, 0⟩

/-- An observable event on the connected socket. -/
inductive NetEvent : Type
  | data (chunk : List Nat)
  | sockError (e : String)

/-- Effect of one socket event on the promise state. -/
def stepEvent (s : PromiseState) : NetEvent → PromiseState
  | .data chunk =>
    let buf := s.buffer ++ chunk
    { buffer := buf
      settled :=
        match s.settled with
        | some r => some r
        | none => some (.resolvedWith (parseResponse buf))
      endCalls := s.endCalls + 1 }
  | .sockError e =>
    { s with
      settled :=
        match s.settled with
        | some r => some r
        | none => some (.rejected e) }

/-- Run the socket events of one `request` call in order. -/
def runEvents (evs : List NetEvent) : PromiseState :=
  evs.foldl stepEvent initPromiseState

/-- Outcome of `send(spec)`: when `await connect(...)` rejects, the cause
value propagates unchanged as the rejection of `request`'s promise; when the
connection is established, the promise settles according to the socket
events (`none` = still pending). -/
def requestOutcome (connectResult : Except String Unit) (evs : List NetEvent) :
    Option Settled :=
  match connectResult with
  | .error cause => some (.rejected cause)
  | .ok _ => (runEvents evs).settled

/-- Modelled from the spec: the tagged failure taxonomy of sections 6 and 7
(`ConnectionError | TransportError | ParseError`), which the spec requires
`send()` to surface; the source defines no such tagged kinds. -/
inductive SpecFailure : Type
  | connectionError (cause : String)
  | transportError (cause : String)
  | parseError
deriving DecidableEq

/-! ### The scheduling primitive `doOnTargetTime`

`doOnTargetTime(callback, targetTime)` first computes
`targetTimeNumber = new Date(targetTime).getTime()` — a millisecond count, or
NaN when the value does not convert to a valid date (modelled as `none`; the
date-string parsing itself is the runtime's).  It then arms a 1 ms
`setInterval` whose ticks compare `Date.now() >= targetTimeNumber` and, at the
first tick where the comparison holds, invoke the callback and clear the
interval.  The model runs the interval over the list of `Date.now()` values
observed at successive ticks and returns the callback invocation times
together with whether `clearInterval` was called; clearing the interval stops
the ticks, so no tick after a firing is ever observed. -/

/-- The tick guard `Date.now() >= targetTimeNumber`; any comparison against
NaN is false in JS. -/
def timeReached (targetTimeNumber : Option Int) (now : Int) : Bool :=
  match targetTimeNumber with
  | none => false
  | some t => decide (t ≤ now)

/-- Run the interval of `doOnTargetTime` over the tick times: returns the
list of callback invocation times and whether the interval was cleared. -/
def doOnTargetTimeRun (targetTimeNumber : Option Int) : List Int → List Int × Bool
  | [] => ([], false)
  | now :: laterTicks =>
    if timeReached targetTimeNumber now then ([now], true)
    else doOnTargetTimeRun targetTimeNumber laterTicks

/-! ### Helper lemmas -/

theorem utf8Char_ne_nil (c : Char) : utf8Char c ≠ [] := by
  simp only [utf8Char]
  split
  · simp
  · split
    · simp
    · split <;> simp

theorem utf8Str_ne_nil {s : String} (h : s ≠ "") : utf8Str s ≠ [] := by
  cases s with
  | mk data =>
    cases data with
    | nil => exact absurd rfl h
    | cons c cs =>
      show (((c :: cs).map utf8Char).flatten : List Nat) ≠ []
      simp only [List.map_cons, List.flatten_cons]
      intro hc
      exact utf8Char_ne_nil c (List.append_eq_nil.mp hc).1

theorem dropLast_append_drop {α : Type} (l : List α) :
    l.dropLast ++ l.drop (l.length - 1) = l := by
  induction l with
  | nil => rfl
  | cons a t ih =>
    cases t with
    | nil => rfl
    | cons b t2 =>
      have h1 : (a :: b :: t2).dropLast = a :: (b :: t2).dropLast := rfl
      have h2 : (a :: b :: t2).length - 1 = (b :: t2).length := rfl
      have h3 : (a :: b :: t2).drop ((b :: t2).length) =
          (b :: t2).drop ((b :: t2).length - 1) := by
        simp [List.length_cons]
      rw [h1, h2, h3, List.cons_append, ih]

section ObjLemmas

variable {κ α : Type} [DecidableEq κ]

theorem objInsert_mem {m : List (κ × α)} {k : κ} {v : α} {kv : κ × α}
    (h : kv ∈ objInsert m k v) : kv ∈ m ∨ kv = (k, v) := by
  induction m with
  | nil =>
    simp only [objInsert, List.mem_singleton] at h
    exact Or.inr h
  | cons p rest ih =>
    by_cases hpk : p.1 = k
    · simp only [objInsert, if_pos hpk] at h
      rcases List.mem_cons.mp h with h1 | h2
      · exact Or.inr h1
      · exact Or.inl (List.mem_cons_of_mem _ h2)
    · simp only [objInsert, if_neg hpk] at h
      rcases List.mem_cons.mp h with h1 | h2
      · exact Or.inl (h1 ▸ List.mem_cons_self _ _)
      · rcases ih h2 with h3 | h4
        · exact Or.inl (List.mem_cons_of_mem _ h3)
        · exact Or.inr h4

theorem objSpread_mem {m adds : List (κ × α)} {kv : κ × α}
    (h : kv ∈ objSpread m adds) : kv ∈ m ∨ kv ∈ adds := by
  induction adds generalizing m with
  | nil => exact Or.inl h
  | cons p rest ih =>
    have hstep : objSpread m (p :: rest) = objSpread (objInsert m p.1 p.2) rest := rfl
    rw [hstep] at h
    rcases ih h with h1 | h2
    · rcases objInsert_mem h1 with h3 | h4
      · exact Or.inl h3
      · right
        rw [h4]
        exact List.mem_cons_self _ _
    · exact Or.inr (List.mem_cons_of_mem _ h2)

theorem objLookup_objInsert (m : List (κ × α)) (k k' : κ) (v : α) :
    objLookup (objInsert m k v) k' = if k' = k then some v else objLookup m k' := by
  induction m with
  | nil =>
    by_cases hk : k' = k
    · subst hk; simp [objInsert, objLookup]
    · have h1 : ¬ k = k' := fun hc => hk hc.symm
      simp [objInsert, objLookup, hk, h1]
  | cons p rest ih =>
    by_cases hpk : p.1 = k
    · simp only [objInsert, if_pos hpk]
      by_cases hk : k' = k
      · subst hk; simp [objLookup]
      · have h1 : ¬ k = k' := fun hc => hk hc.symm
        have h2 : ¬ p.1 = k' := fun hc => hk (hc.symm.trans hpk)
        simp [objLookup, hk, h1, h2]
    · simp only [objInsert, if_neg hpk]
      by_cases hpk' : p.1 = k'
      · have hk : ¬ k' = k := fun hc => hpk (hpk'.trans hc)
        simp [objLookup, hpk', hk]
      · simp [objLookup, hpk', ih]

theorem objLookup_append (l₁ l₂ : List (κ × α)) (k : κ) :
    objLookup (l₁ ++ l₂) k = orElseO (objLookup l₁ k) (objLookup l₂ k) := by
  induction l₁ with
  | nil => simp [objLookup, orElseO]
  | cons p rest ih =>
    by_cases hp : p.1 = k <;> simp [objLookup, orElseO, hp, ih]

theorem objLookupLast_cons (p : κ × α) (rest : List (κ × α)) (k : κ) :
    objLookupLast (p :: rest) k =
      orElseO (objLookupLast rest k) (if p.1 = k then some p.2 else none) := by
  unfold objLookupLast
  rw [List.reverse_cons, objLookup_append]
  by_cases hp : p.1 = k <;> simp [objLookup, hp]

theorem objLookup_objSpread (m adds : List (κ × α)) (k : κ) :
    objLookup (objSpread m adds) k =
      orElseO (objLookupLast adds k) (objLookup m k) := by
  induction adds generalizing m with
  | nil => simp [objSpread, objLookupLast, objLookup, orElseO]
  | cons p rest ih =>
    have hstep : objSpread m (p :: rest) = objSpread (objInsert m p.1 p.2) rest := rfl
    rw [hstep, ih, objLookupLast_cons, objLookup_objInsert]
    cases objLookupLast rest k <;> by_cases hk : k = p.1 <;>
      simp [orElseO, hk, eq_comm]

theorem objLookup_mem {m : List (κ × α)} {k : κ} {v : α}
    (h : objLookup m k = some v) : (k, v) ∈ m := by
  induction m with
  | nil => exact absurd h (by simp [objLookup])
  | cons p rest ih =>
    by_cases hp : p.1 = k
    · simp only [objLookup, if_pos hp, Option.some.injEq] at h
      have : (k, v) = p := (Prod.ext hp h).symm
      exact this ▸ List.mem_cons_self _ _
    · simp only [objLookup, if_neg hp] at h
      exact List.mem_cons_of_mem _ (ih h)

end ObjLemmas

theorem settled_persist (evs : List NetEvent) (s : PromiseState) (r : Settled)
    (h : s.settled = some r) : (evs.foldl stepEvent s).settled = some r := by
  induction evs generalizing s with
  | nil => exact h
  | cons e rest ih =>
    have hstep : (stepEvent s e).settled = some r := by
      cases e <;> simp [stepEvent, h]
    exact ih _ hstep

/-! ### Concrete request specs used by witnesses -/

/-- A GET request with a target time (the shape used in src/src/index.ts). -/
def sampleGet : RequestOptions :=
  { host := "localhost", port := 80, method := some "GET",
    targetTime := some (.str "2025/12/3 17:03:40") }

/-- A POST request with a two-byte body and a numeric target time. -/
def samplePost : RequestOptions :=
  { host := "localhost", port := 80, method := some "POST", body := some "hi",
    targetTime := some (.num 1764763420000) }

/-! ### Claims -/

/-- C2: for every call of the scheduling primitive with a target time that
converted to a valid millisecond count, as soon as a polling tick observes a
current time at or past the target, the callback is invoked exactly once, at
the first tick whose observed time is greater than or equal to the target
(never at an earlier-time tick, by `find?` firstness), and the interval is
cleared immediately after that single firing. -/
theorem doOnTargetTime_fires_once_at_first_tick (T : Int) (ticks : List Int)
    (h : ∃ t ∈ ticks, T ≤ t) :
    ∃ t, ticks.find? (timeReached (some T)) = some t ∧
      doOnTargetTimeRun (some T) ticks = ([t], true) ∧ T ≤ t := by
  induction ticks with
  | nil => simp at h
  | cons a ts ih =>
    by_cases ha : timeReached (some T) a = true
    · refine ⟨a, ?_, ?_, ?_⟩
      · exact List.find?_cons_of_pos _ ha
      · simp [doOnTargetTimeRun, ha]
      · simpa [timeReached] using ha
    · have hb : timeReached (some T) a = false := by simpa using ha
      have h' : ∃ t ∈ ts, T ≤ t := by
        rcases h with ⟨t, ht, hTt⟩
        rcases List.mem_cons.mp ht with rfl | hts
        · exact absurd (by simpa [timeReached] using hTt) ha
        · exact ⟨t, hts, hTt⟩
      rcases ih h' with ⟨t, h1, h2, h3⟩
      refine ⟨t, ?_, ?_, h3⟩
      · rw [List.find?_cons_of_neg _ (by simp [hb])]
        exact h1
      · simp [doOnTargetTimeRun, hb, h2]

/-- Witness for C2: target 10 against ticks observing times 7, 9, 12, 15
fires exactly once, at time 12. -/
theorem doOnTargetTime_fires_once_at_first_tick_witness :
    ∃ t, ([7, 9, 12, 15] : List Int).find? (timeReached (some 10)) = some t ∧
      doOnTargetTimeRun (some 10) [7, 9, 12, 15] = ([t], true) ∧ (10 : Int) ≤ t :=
  doOnTargetTime_fires_once_at_first_tick 10 [7, 9, 12, 15] (by decide)

/-- C10: when the target time converts to NaN (for example an unparsable
date string), every tick compares `Date.now() >= NaN`, which is false, so the
callback is never invoked and the 1-millisecond interval is never cleared. -/
theorem nan_target_never_fires (ticks : List Int) :
    doOnTargetTimeRun none ticks = ([], false) := by
  induction ticks with
  | nil => rfl
  | cons a ts ih => simpa [doOnTargetTimeRun, timeReached] using ih

/-- C9: for a `request` whose first socket event is a data chunk, the promise
is resolved at that very first event with the parse of exactly the bytes
accumulated so far (the first chunk), `socket.end()` has already been called
at that event, and no later event changes the settled response. -/
theorem resolves_at_first_data_event (chunk : List Nat) (rest : List NetEvent) :
    (stepEvent initPromiseState (.data chunk)).settled
        = some (.resolvedWith (parseResponse chunk))
    ∧ (stepEvent initPromiseState (.data chunk)).endCalls = 1
    ∧ (runEvents (.data chunk :: rest)).settled
        = some (.resolvedWith (parseResponse chunk)) := by
  refine ⟨rfl, rfl, ?_⟩
  show (List.foldl stepEvent (stepEvent initPromiseState (.data chunk)) rest).settled = _
  exact settled_persist rest _ _ rfl

/-- First chunk of a well-formed 200 response split mid-body. -/
def chunkA : List Nat := utf8Str "HTTP/1.1 200 OK\r\nContent-Length: 2\r\n\r\nO"

/-- Second chunk: the final body byte. -/
def chunkB : List Nat := utf8Str "K"

/-- C3 (refuting evaluation): delivering the response
`HTTP/1.1 200 OK CRLF Content-Length: 2 CRLF CRLF OK` as two chunks split
inside the body settles the promise with the parse of the first chunk alone
(whose body is empty, the Content-Length framing being unsatisfied), which
differs from the response produced when the same bytes arrive as one single
chunk (body `OK`): chunk-boundary invariance fails. -/
theorem responseAssembly_chunk_split_dependence :
    (runEvents [.data chunkA, .data chunkB]).settled
        = some (.resolvedWith (parseResponse chunkA))
    ∧ (runEvents [.data (chunkA ++ chunkB)]).settled
        = some (.resolvedWith (parseResponse (chunkA ++ chunkB)))
    ∧ (parseResponse (chunkA ++ chunkB)).body = utf8Str "OK"
    ∧ (parseResponse chunkA).body = []
    ∧ (runEvents [.data chunkA, .data chunkB]).settled
        ≠ (runEvents [.data (chunkA ++ chunkB)]).settled := by
  refine ⟨rfl, rfl, by decide, by decide, by decide⟩

/-- C4 (refuting evaluation): on the inbound bytes `NOT HTTP CRLF CRLF` the
status line never parses, the catch-all fallback of `parseResponse` returns
the zero-valued response, and `send()` resolves successfully with it — it
does not fail with a ParseError. -/
theorem malformed_status_line_resolves_zero_response :
    (runEvents [.data (utf8Str "NOT HTTP\r\n\r\n")]).settled
        = some (.resolvedWith zeroResponse)
    ∧ zeroResponse = ⟨0, [], [], []⟩ := by
  refine ⟨by decide, rfl⟩

/-- C8 (refuting evaluation): a failed connection and a socket error event
carrying the same underlying error value produce identical rejections — the
code wraps neither channel, so no reading of the outcomes can present one as
a `ConnectionError` and the other as a `TransportError` as the spec's tagged
taxonomy requires. -/
theorem failure_channels_untagged :
    requestOutcome (Except.error "ECONNREFUSED") []
        = requestOutcome (Except.ok ()) [NetEvent.sockError "ECONNREFUSED"]
    ∧ SpecFailure.connectionError "ECONNREFUSED"
        ≠ SpecFailure.transportError "ECONNREFUSED"
    ∧ ¬ ∃ f : Option Settled → SpecFailure,
        f (requestOutcome (Except.error "ECONNREFUSED") [])
            = SpecFailure.connectionError "ECONNREFUSED"
        ∧ f (requestOutcome (Except.ok ()) [NetEvent.sockError "ECONNREFUSED"])
            = SpecFailure.transportError "ECONNREFUSED" := by
  refine ⟨rfl, by simp, ?_⟩
  rintro ⟨f, h1, h2⟩
  have h3 : requestOutcome (Except.error "ECONNREFUSED") []
      = requestOutcome (Except.ok ()) [NetEvent.sockError "ECONNREFUSED"] := rfl
  rw [h3] at h1
  exact SpecFailure.noConfusion (h1.symm.trans h2)

/-- C8 (amended): when `connect` rejects, `send()` rejects with the
underlying cause value itself, unwrapped; when the established socket emits
an `'error'` before the promise settles, `send()` rejects with the emitted
error value itself, unwrapped, and later events do not change it. -/
theorem connect_and_socket_errors_reject_with_cause (c e : String)
    (evs : List NetEvent) :
    requestOutcome (Except.error c) evs = some (Settled.rejected c)
    ∧ requestOutcome (Except.ok ()) (NetEvent.sockError e :: evs)
        = some (Settled.rejected e) := by
  refine ⟨rfl, ?_⟩
  show (List.foldl stepEvent (stepEvent initPromiseState (.sockError e)) evs).settled = _
  exact settled_persist evs _ _ rfl

/-- C1: in every `request`, the header block is written immediately; when
there is no body to send, the terminating CRLF CRLF is delayed exactly when
`targetTime` is set (the truthy guard `if (targetTime)`); when there is a
body, the terminator is written immediately, all body bytes but the last are
written immediately, and only the final single body byte is delayed when
`targetTime` is set; without a target time every write is immediate. -/
theorem requestEvents_timed_delivery (o : RequestOptions) :
    (isHasBodyRequest o = false →
      requestEvents o = [(utf8Str (requestHeadOf o), false),
                         (utf8Str emptyRow, optTruthy o.targetTime)])
    ∧ (isHasBodyRequest o = true →
      requestEvents o = [(utf8Str (requestHeadOf o), false),
                         (utf8Str emptyRow, false),
                         ((utf8Str (bodyOf o)).dropLast, false),
                         ((utf8Str (bodyOf o)).drop
                             ((utf8Str (bodyOf o)).length - 1),
                          optTruthy o.targetTime)]
      ∧ ((utf8Str (bodyOf o)).drop ((utf8Str (bodyOf o)).length - 1)).length = 1)
    ∧ (optTruthy o.targetTime = false → ∀ ev ∈ requestEvents o, ev.2 = false) := by
  refine ⟨?_, ?_, ?_⟩
  · intro h
    simp [requestEvents, h, sendHeaderEvents]
  · intro h
    have hbody : bodyOf o ≠ "" := by
      simp only [isHasBodyRequest, Bool.and_eq_true, bne_iff_ne, ne_eq] at h
      exact h.1.1
    have hpos : 1 ≤ (utf8Str (bodyOf o)).length :=
      List.length_pos.mpr (utf8Str_ne_nil hbody)
    constructor
    · simp [requestEvents, h, sendHeaderEvents, sendBodyEvents, optTruthy]
    · rw [List.length_drop]
      omega
  · intro hT ev hev
    by_cases hB : isHasBodyRequest o
    · simp only [requestEvents, hB, if_pos, sendHeaderEvents, sendBodyEvents,
        optTruthy, List.cons_append, List.nil_append, List.mem_cons,
        List.not_mem_nil, or_false] at hev
      rcases hev with rfl | rfl | rfl | rfl
      · rfl
      · rfl
      · rfl
      · exact hT
    · simp only [Bool.not_eq_true] at hB
      simp only [requestEvents, hB, if_neg, Bool.false_eq_true, if_false,
        sendHeaderEvents, List.append_nil, List.mem_cons,
        List.not_mem_nil, or_false] at hev
      rcases hev with rfl | rfl
      · rfl
      · exact hT

/-- Witness for C1: the two delivery shapes at a concrete GET with target
time and a concrete POST with body and target time. -/
theorem requestEvents_timed_delivery_witness :
    (requestEvents sampleGet
        = [(utf8Str (requestHeadOf sampleGet), false),
           (utf8Str emptyRow, optTruthy sampleGet.targetTime)])
    ∧ (requestEvents samplePost
        = [(utf8Str (requestHeadOf samplePost), false),
           (utf8Str emptyRow, false),
           ((utf8Str (bodyOf samplePost)).dropLast, false),
           ((utf8Str (bodyOf samplePost)).drop
               ((utf8Str (bodyOf samplePost)).length - 1),
            optTruthy samplePost.targetTime)]
        ∧ ((utf8Str (bodyOf samplePost)).drop
             ((utf8Str (bodyOf samplePost)).length - 1)).length = 1) :=
  ⟨(requestEvents_timed_delivery sampleGet).1 (by decide),
   (requestEvents_timed_delivery samplePost).2.1 (by decide)⟩

/-- C5: for every request whose method is neither GET nor HEAD and whose body
is non-empty, the transmitted `Content-Length` header equals exactly the byte
length of the body, and the full byte sequence written to the transport is
the header block, then the CRLF CRLF terminator, then the body bytes, in that
order. -/
theorem bodied_request_content_length_and_order (o : RequestOptions)
    (hm1 : methodOf o ≠ "GET") (hm2 : methodOf o ≠ "HEAD")
    (hb : bodyOf o ≠ "") :
    objLookup (requestHeadersOf o) "Content-Length"
        = some (toString (utf8Str (bodyOf o)).length)
    ∧ ("Content-Length", toString (utf8Str (bodyOf o)).length) ∈ requestHeadersOf o
    ∧ streamBytes o
        = utf8Str (requestHeadOf o) ++ utf8Str emptyRow ++ utf8Str (bodyOf o) := by
  have hB : isHasBodyRequest o = true := by
    simp [isHasBodyRequest, hm1, hm2, hb]
  have hL : objLookup (requestHeadersOf o) "Content-Length"
      = some (toString (utf8Str (bodyOf o)).length) := by
    simp only [requestHeadersOf, hB, if_pos]
    rw [objLookup_objInsert]
    simp
  refine ⟨hL, objLookup_mem hL, ?_⟩
  simp [streamBytes, requestEvents, hB, sendHeaderEvents, sendBodyEvents,
    List.append_assoc, dropLast_append_drop]

/-- Witness for C5 at the concrete POST with body of two bytes. -/
theorem bodied_request_content_length_and_order_witness :
    objLookup (requestHeadersOf samplePost) "Content-Length"
        = some (toString (utf8Str (bodyOf samplePost)).length)
    ∧ ("Content-Length", toString (utf8Str (bodyOf samplePost)).length)
        ∈ requestHeadersOf samplePost
    ∧ streamBytes samplePost
        = utf8Str (requestHeadOf samplePost) ++ utf8Str emptyRow
            ++ utf8Str (bodyOf samplePost) :=
  bodied_request_content_length_and_order samplePost
    (by decide) (by decide) (by decide)

/-- A GET request whose caller-supplied headers themselves carry a
`Content-Length` entry, alongside a (ignored) body field. -/
def getWithCallerCL : RequestOptions :=
  { host := "h", port := 80, method := some "GET",
    headers := some [("Content-Length", "3")], body := some "abc" }

set_option maxRecDepth 8192 in
/-- C6 (refuting evaluation): a GET whose caller headers contain
`Content-Length: 3` transmits that header line — the transmitted bytes do
include a Content-Length header, so the universal claim fails; the
counterexample shows the line among the serialized header lines and its
bytes inside the transmitted stream. -/
theorem get_request_transmits_caller_content_length :
    methodOf getWithCallerCL = "GET"
    ∧ "Content-Length: 3" ∈ headerLinesOf getWithCallerCL
    ∧ (utf8Str "Content-Length: 3") <:+: streamBytes getWithCallerCL := by
  refine ⟨rfl, by decide, by decide⟩

/-- C6 (amended): for every GET or HEAD request, the transmitter itself
injects no Content-Length header and writes no body bytes — the writes are
exactly the header block and the terminator, and any Content-Length entry
among the transmitted headers was supplied verbatim by the caller. -/
theorem get_head_no_injected_content_length_no_body (o : RequestOptions)
    (h : methodOf o = "GET" ∨ methodOf o = "HEAD") :
    requestEvents o = [(utf8Str (requestHeadOf o), false),
                       (utf8Str emptyRow, optTruthy o.targetTime)]
    ∧ streamBytes o = utf8Str (requestHeadOf o) ++ utf8Str emptyRow
    ∧ ∀ kv ∈ requestHeadersOf o,
        (utf8Str kv.1).map toLowerByte = utf8Str "content-length" →
          kv ∈ headersOf o := by
  have hB : isHasBodyRequest o = false := by
    rcases h with h | h <;> simp [isHasBodyRequest, h]
  refine ⟨?_, ?_, ?_⟩
  · simp [requestEvents, hB, sendHeaderEvents]
  · simp [streamBytes, requestEvents, hB, sendHeaderEvents]
  · intro kv hkv hlow
    have hkv' : kv ∈ objSpread (defaultHeaders o) (headersOf o) := by
      simpa only [requestHeadersOf, hB, Bool.false_eq_true, if_false,
        mergedHeaders] using hkv
    rcases objSpread_mem hkv' with hd | hc
    · exfalso
      simp only [defaultHeaders, List.mem_cons, List.not_mem_nil, or_false] at hd
      rcases hd with rfl | rfl | rfl
      · have hlow' : (utf8Str "Host").map toLowerByte
            = utf8Str "content-length" := hlow
        exact absurd hlow' (by decide)
      · have hlow' : (utf8Str "Connection").map toLowerByte
            = utf8Str "content-length" := hlow
        exact absurd hlow' (by decide)
      · have hlow' : (utf8Str "accept").map toLowerByte
            = utf8Str "content-length" := hlow
        exact absurd hlow' (by decide)
    · exact hc

/-- Witness for C6 (amended) at the GET request carrying a caller
Content-Length header and a body field. -/
theorem get_head_no_injected_content_length_no_body_witness :
    requestEvents getWithCallerCL
        = [(utf8Str (requestHeadOf getWithCallerCL), false),
           (utf8Str emptyRow, optTruthy getWithCallerCL.targetTime)]
    ∧ streamBytes getWithCallerCL
        = utf8Str (requestHeadOf getWithCallerCL) ++ utf8Str emptyRow
    ∧ ∀ kv ∈ requestHeadersOf getWithCallerCL,
        (utf8Str kv.1).map toLowerByte = utf8Str "content-length" →
          kv ∈ headersOf getWithCallerCL :=
  get_head_no_injected_content_length_no_body getWithCallerCL (Or.inl rfl)

/-- A request whose caller headers carry `connection` in lower case, a
case-variant of the default `Connection` header. -/
def callerConnSpec : RequestOptions :=
  { host := "h", port := 80, headers := some [("connection", "close")] }

/-- C7 (refuting evaluation): supplying the caller header
`connection: close` — the default `Connection` header's name in another
letter case — does not override the default: the transmitted header block
still carries `Connection: keep-alive` in addition to the caller's line, so
the merge's collision handling is not case-insensitive. -/
theorem header_merge_not_case_insensitive :
    ("connection", "close") ∈ headersOf callerConnSpec
    ∧ "Connection: keep-alive" ∈ headerLinesOf callerConnSpec
    ∧ "connection: close" ∈ headerLinesOf callerConnSpec
    ∧ objLookup (requestHeadersOf callerConnSpec) "Connection"
        = some "keep-alive" := by
  refine ⟨by decide, by decide, by decide, by decide⟩

/-- C7 (amended): the merge of the defaults
`{Host, Connection: keep-alive, accept: application/json}` with the caller
headers resolves collisions by exact, case-sensitive key equality — the
caller's (last) value wins for a key spelled exactly like a default, the
default survives otherwise — and every transmitted header pair is verbatim a
default pair or a caller pair, so the caller's casing is preserved. -/
theorem header_merge_exact_case_precedence (o : RequestOptions) (k : String) :
    objLookup (mergedHeaders o) k
        = orElseO (objLookupLast (headersOf o) k) (objLookup (defaultHeaders o) k)
    ∧ ∀ kv ∈ mergedHeaders o, kv ∈ defaultHeaders o ∨ kv ∈ headersOf o := by
  unfold mergedHeaders
  exact ⟨objLookup_objSpread _ _ _, fun _ hkv => objSpread_mem hkv⟩

end SpacifiedTimeRequest
